import Mathlib

/-!
Verification development for the devos-orchestrator core.

This file gives a shallow embedding of the parts of the code base that the
checked properties talk about:

* the Task Router (`src/router/routing-error.ts`, `TaskModelRouter`) and the
  model-registry client (`src/model-registry/model-registry.client.ts`);
* the CLI output publisher (`src/cli/services/cli-output-publisher.service.ts`);
* the session history buffer (`src/cli/services/session-history.service.ts`);
* the session supervisor (`SessionManager` together with
  `CliSessionRedisService`) and the health monitor
  (`src/cli/services/health-monitor.service.ts`);
* the per-session line counter of `ClaudeCodeSession`.

TypeScript `number` values used for prices, token counts and averages are
embedded as `ℚ`; millisecond timestamps (the code compares
`Date.getTime()` values) as `ℤ`; counters as `ℕ`.  Asynchronous methods that
can reject are embedded as `Except`-valued functions; methods that absorb all
errors are embedded as total functions.
-/

namespace DevOS

/-- Task types, from `provider.interfaces.ts` (`TaskType`). -/
inductive TaskType where
  | coding
  | planning
  | review
  | summarization
  | embedding
  | simple_chat
  | complex_reasoning
deriving DecidableEq, Repr

/-- Quality tiers of catalog models (`model-registry.types.ts`). -/
inductive QualityTier where
  | economy
  | standard
  | premium
deriving DecidableEq, Repr

/-- Catalog row, from `model-registry.types.ts` (`ModelDefinition`).  The
purely informational fields (`id`, `displayName`, `avgLatencyMs`,
`deprecationDate`, `createdAt`, `updatedAt`) play no role in any routing
decision and are not embedded. -/
structure ModelDefinition where
  modelId : String
  provider : String
  contextWindow : Nat
  maxOutputTokens : Nat
  supportsTools : Bool
  supportsVision : Bool
  supportsStreaming : Bool
  supportsEmbedding : Bool
  inputPricePer1M : ℚ
  outputPricePer1M : ℚ
  cachedInputPricePer1M : Option ℚ
  qualityTier : QualityTier
  suitableFor : List TaskType
  available : Bool
deriving DecidableEq, Repr

/-- Pricing record, from `model-registry.types.ts` (`ModelPricing`). -/
structure ModelPricing where
  inputPer1M : ℚ
  outputPer1M : ℚ
  cachedInputPer1M : Option ℚ
deriving DecidableEq, Repr

/-- Result of one registry fetch of a single model
(`ModelRegistryClient.getByModelId`): the HTTP call may fail
(`Except.error`), succeed with a 404 (`Except.ok none`), or return a model.
The whole remote registry is embedded as such a fetch function. -/
def RegistryFetch : Type := String → Except String (Option ModelDefinition)

/-- Embedding of `ModelRegistryClient.getModelPricing`
(`model-registry.client.ts`, lines 110-126): look the model up; a missing
model is an error; otherwise copy the three price fields. -/
def getModelPricing (fetch : RegistryFetch) (modelId : String) :
    Except String ModelPricing :=
  match fetch modelId with
  | Except.error e => Except.error e
  | Except.ok none =>
      Except.error ("Model " ++ modelId ++ " not found in registry")
  | Except.ok (some model) =>
      Except.ok
        { inputPer1M := model.inputPricePer1M
          outputPer1M := model.outputPricePer1M
          cachedInputPer1M := model.cachedInputPricePer1M }

/-- Embedding of `TaskModelRouter.estimateCost` (`routing-error.ts`, lines
156-167): on a successful pricing lookup return
`(input * inputPer1M + output * outputPer1M) / 1e6`; if the lookup throws,
return `-1`. -/
def estimateCost (fetch : RegistryFetch) (modelId : String)
    (inputTokens outputTokens : ℚ) : ℚ :=
  match getModelPricing fetch modelId with
  | Except.ok pricing =>
      (inputTokens * pricing.inputPer1M + outputTokens * pricing.outputPer1M)
        / 1000000
  | Except.error _ => -1

/-- Routing presets (`router.interfaces.ts`, `WorkspaceRoutingConfig.preset`). -/
inductive Preset where
  | auto
  | economy
  | quality
  | balanced
deriving DecidableEq, Repr

/-- Routing request, from `router.interfaces.ts` (`TaskRoutingRequest`).
Optional booleans are embedded as `Bool` (absent and `false` behave
identically in every truthiness test of the source); `contextSizeTokens` is
kept optional because the source guards it with a truthiness test. -/
structure TaskRoutingRequest where
  taskType : TaskType
  estimatedInputTokens : Option ℚ
  estimatedOutputTokens : Option ℚ
  requiresTools : Bool
  requiresVision : Bool
  requiresStreaming : Bool
  contextSizeTokens : Option Nat
  workspaceId : String
  projectId : Option String
  forceModel : Option String
  forceProvider : Option String
deriving Repr

/-- Workspace routing configuration (`router.interfaces.ts`,
`WorkspaceRoutingConfig`).  The `taskOverrides` and budget fields feed only
the override stage of `routeTask`, which none of the checked claims touch,
and are not embedded. -/
structure WorkspaceRoutingConfig where
  workspaceId : String
  enabledProviders : List String
  preset : Preset
deriving Repr

/-- Result of a capability validation (`routing-error.ts`,
`ValidationResult`). -/
structure ValidationResult where
  valid : Bool
  reason : Option String
deriving DecidableEq, Repr

/-- Alternative considered but not selected (`router.interfaces.ts`,
`RoutingAlternative`). -/
structure RoutingAlternative where
  model : String
  provider : String
  estimatedCost : ℚ
  reason : String
deriving Repr

/-- Routing decision (`router.interfaces.ts`, `RoutingDecision`). -/
structure RoutingDecision where
  selectedModel : String
  provider : String
  reason : String
  estimatedCost : ℚ
  alternatives : List RoutingAlternative
deriving Repr

/-- RoutingError payload (`routing-error.ts`).  The `request` field of the
source is the routing request itself and is omitted from the embedded error. -/
structure RoutingError where
  message : String
  taskType : TaskType
  attemptedModels : List String
deriving Repr

/-- Embedding of `TaskModelRouter.validateCapabilities` (`routing-error.ts`,
lines 666-692).  The guards are checked in source order.  The context-window
guard reproduces the JavaScript truthiness of `request.contextSizeTokens`
(absent and `0` both skip the check), and the embedding-only guard reproduces
`model.supportsEmbedding && model.suitableFor.length === 1 &&
model.suitableFor[0] === 'embedding'`. -/
def validateCapabilities (model : ModelDefinition)
    (request : TaskRoutingRequest) : ValidationResult :=
  if request.requiresTools && !model.supportsTools then
    { valid := false
      reason := some ("Model " ++ model.modelId ++ " does not support tools") }
  else if request.requiresVision && !model.supportsVision then
    { valid := false
      reason := some ("Model " ++ model.modelId ++ " does not support vision") }
  else if request.requiresStreaming && !model.supportsStreaming then
    { valid := false
      reason := some ("Model " ++ model.modelId ++
        " does not support streaming") }
  else if (match request.contextSizeTokens with
      | none => false
      | some c => decide (c ≠ 0) && decide (model.contextWindow < c)) then
    { valid := false
      reason := some ("Model " ++ model.modelId ++
        " context window insufficient for request") }
  else if decide (request.taskType ≠ TaskType.embedding) &&
      model.supportsEmbedding && decide (model.suitableFor.length = 1) &&
      decide (model.suitableFor.head? = some TaskType.embedding) then
    { valid := false
      reason := some ("Model " ++ model.modelId ++
        " is an embedding-only model") }
  else if decide (request.taskType = TaskType.embedding) &&
      !model.supportsEmbedding then
    { valid := false
      reason := some ("Model " ++ model.modelId ++
        " does not support embedding") }
  else { valid := true, reason := none }

/-- Registry fetch backed by a fixed catalog: `getByModelId` becomes a pure
list lookup (first row with a matching `modelId`) and never fails.  This is
the deterministic-registry view under which the routing claims are stated. -/
def catalogFetch (catalog : List ModelDefinition) : RegistryFetch :=
  fun modelId => Except.ok (catalog.find? (fun m => m.modelId = modelId))

/-- Embedding of `TaskModelRouter.calculateCostForRequest` (`routing-error.ts`,
lines 697-704): missing token estimates default to 1000 input and 500 output
tokens (`router.defaults.ts`). -/
def calculateCostForRequest (fetch : RegistryFetch) (modelId : String)
    (request : TaskRoutingRequest) : ℚ :=
  estimateCost fetch modelId (request.estimatedInputTokens.getD 1000)
    (request.estimatedOutputTokens.getD 500)

/-- Embedding of `TaskModelRouter.handleForceModel` (`routing-error.ts`, lines
248-291), the branch `routeTask` takes as soon as `request.forceModel` is set
and the non-empty `enabledProviders` pre-check has passed.  The forced model
id is pushed onto `attemptedModels`; a missing model or a provider without a
BYOK key is a `RoutingError`; a capability mismatch only appends a WARNING to
the decision reason. -/
def handleForceModel (catalog : List ModelDefinition)
    (request : TaskRoutingRequest) (cfg : WorkspaceRoutingConfig)
    (modelId : String) : Except RoutingError RoutingDecision :=
  match catalog.find? (fun m => m.modelId = modelId) with
  | none =>
      Except.error
        { message := "Forced model " ++ modelId ++
            " not found in model registry."
          taskType := request.taskType
          attemptedModels := [modelId] }
  | some model =>
      if model.provider ∈ cfg.enabledProviders then
        let capabilityCheck := validateCapabilities model request
        let cost := calculateCostForRequest (catalogFetch catalog) modelId
          request
        let reason :=
          if capabilityCheck.valid then
            "Forced model selection: " ++ modelId
          else
            "Forced model selection: " ++ modelId ++ " (WARNING: " ++
              capabilityCheck.reason.getD "" ++ ")"
        Except.ok
          { selectedModel := modelId
            provider := model.provider
            reason := reason
            estimatedCost := cost
            alternatives := [] }
      else
        Except.error
          { message := "Forced model " ++ modelId ++ " provider " ++
              model.provider ++ " is not in workspace enabled providers."
            taskType := request.taskType
            attemptedModels := [modelId] }

/-- Output event types of the session supervisor
(`cli-session.interfaces.ts`, `OutputEventType`). -/
inductive OutputEventType where
  | stdout
  | stderr
  | command
  | exit
deriving DecidableEq, Repr

/-- Stream event types (`cli-stream.interfaces.ts`, `CliStreamEventType`). -/
inductive CliStreamEventType where
  | output
  | command
  | file_change
  | test_result
  | error
deriving DecidableEq, Repr

/-- Stdout/stderr discriminator (`cli-stream.interfaces.ts`, `OutputType`). -/
inductive OutputType where
  | stdout
  | stderr
deriving DecidableEq, Repr

/-- File change kinds (`cli-stream.interfaces.ts`, `FileChangeType`). -/
inductive FileChangeType where
  | created
  | edited
  | deleted
deriving DecidableEq, Repr

/-- Test statuses (`cli-stream.interfaces.ts`, `TestStatus`). -/
inductive TestStatus where
  | passed
  | failed
  | skipped
deriving DecidableEq, Repr

/-- Test summary counts (`cli-stream.interfaces.ts`, `TestSummary`). -/
structure TestSummary where
  passed : Nat
  failed : Nat
  skipped : Nat
  total : Nat
deriving DecidableEq, Repr

/-- Per-line output event of a session (`cli-session.interfaces.ts`,
`CliOutputEvent`).  Timestamps stay embedded as their ISO strings; nothing
in the checked properties computes with them. -/
structure CliOutputEvent where
  sessionId : String
  agentId : String
  type : OutputEventType
  content : String
  timestamp : String
  lineNumber : Nat
deriving DecidableEq, Repr

/-- Optional metadata of a stream event (`cli-stream.interfaces.ts`,
`CliStreamEventMetadata`). -/
structure CliStreamEventMetadata where
  outputType : Option OutputType
  fileName : Option String
  changeType : Option FileChangeType
  testName : Option String
  testStatus : Option TestStatus
  filePath : Option String
  errorCode : Option String
  errorType : Option String
  stackTrace : Option String
  summary : Option TestSummary
deriving DecidableEq, Repr

/-- Metadata record with no field set; it corresponds to the freshly created
`const metadata = {}` of `transformEvent`, and a final metadata equal to it
corresponds to `Object.keys(metadata).length === 0`. -/
def emptyStreamMetadata : CliStreamEventMetadata :=
  { outputType := none
    fileName := none
    changeType := none
    testName := none
    testStatus := none
    filePath := none
    errorCode := none
    errorType := none
    stackTrace := none
    summary := none }

/-- Enriched, tenancy-tagged stream event (`cli-stream.interfaces.ts`,
`CliStreamEvent`). -/
structure CliStreamEvent where
  sessionId : String
  agentId : String
  projectId : String
  workspaceId : String
  type : CliStreamEventType
  content : String
  timestamp : String
  lineNumber : Nat
  metadata : Option CliStreamEventMetadata
deriving DecidableEq, Repr

/-- Session context handed to the publisher (`cli-stream.interfaces.ts`,
`SessionContext`). -/
structure SessionContext where
  sessionId : String
  agentId : String
  projectId : String
  workspaceId : String
deriving DecidableEq, Repr

/-- File change information extracted by the parser
(`cli-stream.interfaces.ts`, `FileChangeInfo`). -/
structure FileChangeInfo where
  fileName : String
  changeType : FileChangeType
  filePath : String
deriving DecidableEq, Repr

/-- Test result information extracted by the parser
(`cli-stream.interfaces.ts`, `TestResultInfo`). -/
structure TestResultInfo where
  testName : String
  status : TestStatus
  filePath : Option String
  summary : Option TestSummary
deriving DecidableEq, Repr

/-- Error information extracted by the parser (`cli-stream.interfaces.ts`,
`ErrorInfo`). -/
structure ErrorInfo where
  errorType : String
  message : String
  stackTrace : Option String
deriving DecidableEq, Repr

/-- Classification of a raw output line (`output-parser.ts`,
`ParsedOutputResult`). -/
structure ParsedOutputResult where
  type : CliStreamEventType
  fileChange : Option FileChangeInfo
  testResult : Option TestResultInfo
  error : Option ErrorInfo
deriving DecidableEq, Repr

/-- Embedding of `CliOutputPublisher.transformEvent`
(`cli-output-publisher.service.ts`, lines 121-173).  The call
`parseOutputLine(event.content)` is abstracted into the `parsed` argument:
its result is computed first and consulted only by the non-command branches,
so quantifying over `parsed` covers every possible parser outcome.  A source
event of type `command` keeps type `command`; otherwise a non-`output`
parsed type is adopted together with its enrichment fields; stdout/stderr
events additionally record their `outputType`; a metadata record that is
still empty is omitted (`undefined`). -/
def transformEvent (parsed : ParsedOutputResult) (event : CliOutputEvent)
    (context : SessionContext) : CliStreamEvent :=
  let base :=
    if event.type = OutputEventType.command then
      (CliStreamEventType.command, emptyStreamMetadata)
    else if parsed.type ≠ CliStreamEventType.output then
      let md := emptyStreamMetadata
      let md := match parsed.fileChange with
        | some fc =>
            { md with
              fileName := some fc.fileName
              changeType := some fc.changeType
              filePath := some fc.filePath }
        | none => md
      let md := match parsed.testResult with
        | some tr =>
            let md1 := { md with
              testName := some tr.testName
              testStatus := some tr.status
              filePath := tr.filePath }
            match tr.summary with
            | some s => { md1 with summary := some s }
            | none => md1
        | none => md
      let md := match parsed.error with
        | some err =>
            { md with
              errorType := some err.errorType
              errorCode := some err.errorType }
        | none => md
      (parsed.type, md)
    else (CliStreamEventType.output, emptyStreamMetadata)
  let metadata :=
    if event.type = OutputEventType.stdout then
      { base.2 with outputType := some OutputType.stdout }
    else if event.type = OutputEventType.stderr then
      { base.2 with outputType := some OutputType.stderr }
    else base.2
  { sessionId := context.sessionId
    agentId := context.agentId
    projectId := context.projectId
    workspaceId := context.workspaceId
    type := base.1
    content := event.content
    timestamp := event.timestamp
    lineNumber := event.lineNumber
    metadata :=
      if metadata = emptyStreamMetadata then none else some metadata }

/-- Example catalog model used to exercise the cost theorems on concrete
inputs. -/
def sampleSonnet : ModelDefinition :=
  { modelId := "claude-sonnet-4-20250514"
    provider := "anthropic"
    contextWindow := 200000
    maxOutputTokens := 64000
    supportsTools := true
    supportsVision := true
    supportsStreaming := true
    supportsEmbedding := false
    inputPricePer1M := 3
    outputPricePer1M := 15
    cachedInputPricePer1M := none
    qualityTier := QualityTier.standard
    suitableFor := [TaskType.coding, TaskType.planning, TaskType.review]
    available := true }

/-- Registry fetch over a one-model catalog containing `sampleSonnet`. -/
def sampleFetch : RegistryFetch := fun modelId =>
  if modelId = "claude-sonnet-4-20250514" then Except.ok (some sampleSonnet)
  else Except.ok none

/-- Pricing of the sample model, as `getModelPricing` returns it. -/
def samplePricing : ModelPricing :=
  { inputPer1M := 3
    outputPer1M := 15
    cachedInputPer1M := none }

/-- Request used by the router witnesses: a plain coding request with no
extra requirements. -/
def codingRequest : TaskRoutingRequest :=
  { taskType := TaskType.coding
    estimatedInputTokens := none
    estimatedOutputTokens := none
    requiresTools := false
    requiresVision := false
    requiresStreaming := false
    contextSizeTokens := none
    workspaceId := "ws-1"
    projectId := none
    forceModel := some "claude-sonnet-4-20250514"
    forceProvider := none }

/-- Workspace configuration with only the anthropic provider enabled. -/
def anthropicOnlyConfig : WorkspaceRoutingConfig :=
  { workspaceId := "ws-1"
    enabledProviders := ["anthropic"]
    preset := Preset.auto }

/-- Embedding-only catalog row whose `supportsEmbedding` flag is false: it is
suitable only for embedding tasks, yet the embedding-only rejection rule of
`validateCapabilities` does not fire for it. -/
def embeddingOnlyNoFlagModel : ModelDefinition :=
  { modelId := "text-embedding-misflagged"
    provider := "openai"
    contextWindow := 8191
    maxOutputTokens := 0
    supportsTools := false
    supportsVision := false
    supportsStreaming := false
    supportsEmbedding := false
    inputPricePer1M := 1/50
    outputPricePer1M := 0
    cachedInputPricePer1M := none
    qualityTier := QualityTier.economy
    suitableFor := [TaskType.embedding]
    available := true }

/-- Request identical to `codingRequest` but with no forced model, so that it
reaches capability validation in the ordinary selection stages. -/
def plainCodingRequest : TaskRoutingRequest :=
  { taskType := TaskType.coding
    estimatedInputTokens := none
    estimatedOutputTokens := none
    requiresTools := false
    requiresVision := false
    requiresStreaming := false
    contextSizeTokens := none
    workspaceId := "ws-1"
    projectId := none
    forceModel := none
    forceProvider := none }

/-- Witness for the amended C6: an embedding-only model with the flag set is
rejected for a coding request. -/
def embeddingSmallModel : ModelDefinition :=
  { modelId := "text-embedding-3-small"
    provider := "openai"
    contextWindow := 8191
    maxOutputTokens := 0
    supportsTools := false
    supportsVision := false
    supportsStreaming := false
    supportsEmbedding := true
    inputPricePer1M := 1/50
    outputPricePer1M := 0
    cachedInputPricePer1M := none
    qualityTier := QualityTier.economy
    suitableFor := [TaskType.embedding]
    available := true }

/-- Parser outcome claiming a file change, used to show the enrichment is
ignored for command events. -/
def fileChangeParsed : ParsedOutputResult :=
  { type := CliStreamEventType.file_change
    fileChange := some
      { fileName := "demo.ts"
        changeType := FileChangeType.created
        filePath := "src/demo.ts" }
    testResult := none
    error := none }

/-- Injected command event whose content would parse as a file change. -/
def injectedCommandEvent : CliOutputEvent :=
  { sessionId := "session-1"
    agentId := "agent-1"
    type := OutputEventType.command
    content := "> Creating src/demo.ts"
    timestamp := "2026-01-01T00:00:00.000Z"
    lineNumber := 4 }

/-- Session context for the publisher witnesses. -/
def sampleContext : SessionContext :=
  { sessionId := "session-1"
    agentId := "agent-1"
    projectId := "project-1"
    workspaceId := "ws-1" }

/-- Publisher configuration (`cli-stream.interfaces.ts`, `PublisherConfig`);
all values are in their source units (counts and milliseconds). -/
structure PublisherConfig where
  maxBatchSize : Nat
  batchWindowMs : Nat
  publishTimeoutMs : Nat
  retryAttempts : Nat
  retryDelayMs : Nat
deriving DecidableEq, Repr

/-- Default publisher configuration (`DEFAULT_PUBLISHER_CONFIG`). -/
def defaultPublisherConfig : PublisherConfig :=
  { maxBatchSize := 50
    batchWindowMs := 100
    publishTimeoutMs := 500
    retryAttempts := 3
    retryDelayMs := 100 }

/-- Observable outcome of one `publishWithRetry` call: whether some attempt
succeeded, how many attempts ran, the back-off delays slept between attempts
(in milliseconds, in order), and by how much `metrics.publishFailures` was
incremented. -/
structure RetryOutcome where
  success : Bool
  attemptsMade : Nat
  backoffDelays : List Nat
  failureIncrement : Nat
deriving DecidableEq, Repr

/-- Loop of `CliOutputPublisher.publishWithRetry`
(`cli-output-publisher.service.ts`, lines 256-289), indexed by the current
`attempt` and the number of loop iterations left.  The per-attempt outcome
(Redis rejection or the publish-timeout race) is abstracted into the `fails`
oracle.  After a failed attempt that is not the last one, the loop sleeps
`retryDelayMs * 2 ^ attempt`; when every attempt fails, the failure counter
is incremented once. -/
def publishWithRetryGo (cfg : PublisherConfig) (fails : Nat → Bool) :
    Nat → Nat → RetryOutcome
  | _, 0 =>
      { success := false
        attemptsMade := 0
        backoffDelays := []
        failureIncrement := 1 }
  | attempt, remaining + 1 =>
      if fails attempt then
        let rest := publishWithRetryGo cfg fails (attempt + 1) remaining
        { success := rest.success
          attemptsMade := rest.attemptsMade + 1
          backoffDelays :=
            if attempt < cfg.retryAttempts - 1 then
              cfg.retryDelayMs * 2 ^ attempt :: rest.backoffDelays
            else rest.backoffDelays
          failureIncrement := rest.failureIncrement }
      else
        { success := true
          attemptsMade := 1
          backoffDelays := []
          failureIncrement := 0 }

/-- Embedding of `CliOutputPublisher.publishWithRetry`: run the loop from
attempt 0 with `retryAttempts` iterations. -/
def publishWithRetry (cfg : PublisherConfig) (fails : Nat → Bool) :
    RetryOutcome :=
  publishWithRetryGo cfg fails 0 cfg.retryAttempts

/-- Whether a message with per-attempt outcome `fails` exhausts all its
publish attempts under `cfg`. -/
def eventAllAttemptsFail (cfg : PublisherConfig) (fails : Nat → Bool) : Bool :=
  (List.range cfg.retryAttempts).all fails

/-- Pending entry of the publisher batch buffer
(`cli-output-publisher.service.ts`, `PendingEvent`), extended with the
per-attempt failure oracle of its eventual publish. -/
structure PendingMessage where
  event : CliStreamEvent
  channel : String
  attemptFails : Nat → Bool

/-- Publisher metrics (`cli-stream.interfaces.ts`, `PublisherMetrics`).  The
`averageLatencyMs` and `lastPublishTime` fields are wall-clock measurements
and are not embedded. -/
structure PublisherMetrics where
  eventsPublished : Nat
  batchesPublished : Nat
  averageBatchSize : ℚ
  publishFailures : Nat
deriving DecidableEq, Repr

/-- Metrics at publisher construction (all zero). -/
def initialMetrics : PublisherMetrics :=
  { eventsPublished := 0
    batchesPublished := 0
    averageBatchSize := 0
    publishFailures := 0 }

/-- Embedding of `CliOutputPublisher.updateMetrics`
(`cli-output-publisher.service.ts`, lines 294-305), restricted to the
embedded fields. -/
def updateMetrics (metrics : PublisherMetrics) (eventCount : Nat) :
    PublisherMetrics :=
  let totalBatches := metrics.batchesPublished + 1
  { metrics with
    eventsPublished := metrics.eventsPublished + eventCount
    batchesPublished := totalBatches
    averageBatchSize :=
      (metrics.averageBatchSize * ((totalBatches : ℚ) - 1) + (eventCount : ℚ))
        / (totalBatches : ℚ) }

/-- Batch-buffer state of the publisher: the pending events and the metrics.
The `batchTimer`, `isShuttingDown` and single-flight flush flags only
sequence the asynchronous interleaving; in this sequential embedding every
flush runs to completion, which is the state the flush mutex guarantees. -/
structure PublisherState where
  pendingEvents : List PendingMessage
  metrics : PublisherMetrics

/-- Publisher state at construction. -/
def initialPublisherState : PublisherState :=
  { pendingEvents := [], metrics := initialMetrics }

/-- Embedding of `CliOutputPublisher.flush`
(`cli-output-publisher.service.ts`, lines 193-251): an empty buffer returns
unchanged; otherwise all pending events are taken atomically and each is
published with retry.  `publishWithRetry` never throws, so `Promise.all`
always resolves and `updateMetrics` runs with the full batch size; the
per-message failure-counter increments happen inside `publishWithRetry`. -/
def flushState (cfg : PublisherConfig) (s : PublisherState) : PublisherState :=
  if s.pendingEvents.isEmpty then s
  else
    let eventsToPublish := s.pendingEvents
    let outcomes :=
      eventsToPublish.map (fun m => publishWithRetry cfg m.attemptFails)
    let metricsAfterRetries := { s.metrics with
      publishFailures := s.metrics.publishFailures +
        (outcomes.map (fun o => o.failureIncrement)).sum }
    { pendingEvents := []
      metrics := updateMetrics metricsAfterRetries eventsToPublish.length }

/-- Embedding of `CliOutputPublisher.publish`
(`cli-output-publisher.service.ts`, lines 92-104): transform the event,
enqueue it on the workspace channel, and flush immediately when the buffer
has reached `maxBatchSize` (otherwise the batch timer is scheduled, embedded
as the separate `flushTimer` operation). -/
def publishCall (cfg : PublisherConfig) (s : PublisherState)
    (parsed : ParsedOutputResult) (event : CliOutputEvent)
    (context : SessionContext) (attemptFails : Nat → Bool) : PublisherState :=
  let streamEvent := transformEvent parsed event context
  let channel := "cli-events:" ++ context.workspaceId
  let s1 := { s with pendingEvents := s.pendingEvents ++
    [{ event := streamEvent, channel := channel,
       attemptFails := attemptFails }] }
  if cfg.maxBatchSize ≤ s1.pendingEvents.length then flushState cfg s1 else s1

/-- Externally triggered publisher operations: a `publish` call (with the
parser outcome of its line and the failure oracle of its eventual publish
attempts) or the firing of the batch-window timer. -/
inductive PublisherOp where
  | publish (parsed : ParsedOutputResult) (event : CliOutputEvent)
      (context : SessionContext) (attemptFails : Nat → Bool)
  | flushTimer

/-- One publisher operation applied to the state. -/
def publisherStep (cfg : PublisherConfig) (s : PublisherState) :
    PublisherOp → PublisherState
  | PublisherOp.publish parsed event context attemptFails =>
      publishCall cfg s parsed event context attemptFails
  | PublisherOp.flushTimer => flushState cfg s

/-- Run a sequence of publisher operations from the initial state. -/
def runPublisher (cfg : PublisherConfig) (ops : List PublisherOp) :
    PublisherState :=
  ops.foldl (publisherStep cfg) initialPublisherState

/-- Embedding of `CliOutputPublisher.shutdown`
(`cli-output-publisher.service.ts`, lines 331-341): cancel the timer and
perform one final flush. -/
def shutdownPublisher (cfg : PublisherConfig) (s : PublisherState) :
    PublisherState :=
  flushState cfg s

/-- Failure oracles of the events accepted by `publish` among a sequence of
operations, in acceptance order. -/
def acceptedOracles (ops : List PublisherOp) : List (Nat → Bool) :=
  ops.filterMap (fun op => match op with
    | PublisherOp.publish _ _ _ f => some f
    | PublisherOp.flushTimer => none)

/-- Accounting relation between a publisher state and the failure oracles of
all events accepted so far: some prefix has been flushed, `eventsPublished`
counts the flushed events and `publishFailures` counts the flushed events
that exhausted their retries. -/
def Accounts (cfg : PublisherConfig) (s : PublisherState)
    (oracles : List (Nat → Bool)) : Prop :=
  ∃ flushed : List (Nat → Bool),
    oracles = flushed ++ s.pendingEvents.map (fun m => m.attemptFails) ∧
    s.metrics.eventsPublished = flushed.length ∧
    s.metrics.publishFailures =
      flushed.countP (fun f => eventAllAttemptsFail cfg f)

/-- History configuration (`cli-stream.interfaces.ts`, `HistoryConfig`). -/
structure HistoryConfig where
  maxLines : Nat
  ttlSeconds : Nat
deriving DecidableEq, Repr

/-- Default history configuration (`DEFAULT_HISTORY_CONFIG`). -/
def defaultHistoryConfig : HistoryConfig :=
  { maxLines := 1000, ttlSeconds := 86400 }

/-- Embedding of `SessionHistoryService.addEvent`
(`session-history.service.ts`, lines 70-94) acting on the Redis list stored
at `cli:history:{sessionId}`, represented newest-first exactly as the list
is laid out by `LPUSH`: push the serialized event to the front, then
`LTRIM key 0 maxLines-1`, which for `maxLines ≥ 1` keeps the first
`maxLines` entries.  The TTL refresh does not affect the list contents. -/
def addEvent (cfg : HistoryConfig) (stored : List CliStreamEvent)
    (event : CliStreamEvent) : List CliStreamEvent :=
  (event :: stored).take cfg.maxLines

/-- Embedding of `SessionHistoryService.getHistory`
(`session-history.service.ts`, lines 147-183): read the first `count`
entries of the list (`LRANGE key 0 count-1`, the newest ones, valid for
`count ≥ 1`), with `count` defaulting to `maxLines`, then reverse them into
chronological order.  Entries are structured events here, so the
JSON-parse-and-skip-malformed step keeps all of them. -/
def getHistory (cfg : HistoryConfig) (stored : List CliStreamEvent)
    (lineCount : Option Nat) : List CliStreamEvent :=
  let count := lineCount.getD cfg.maxLines
  (stored.take count).reverse

/-- Stored history list obtained by appending the given events, oldest
first, through `addEvent`, starting from an absent key (empty list). -/
def historyOf (cfg : HistoryConfig) (appended : List CliStreamEvent) :
    List CliStreamEvent :=
  appended.foldl (addEvent cfg) []

/-- Session statuses (`cli-session.interfaces.ts`, `SessionStatus`). -/
inductive SessionStatus where
  | running
  | idle
  | terminated
deriving DecidableEq, Repr

/-- The part of a `ClaudeCodeSession` that its event emission reads and
writes: the status and the per-session `lineNumber` counter
(`claude-code-session.ts`). -/
structure SessionLineState where
  status : SessionStatus
  lineNumber : Nat
deriving DecidableEq, Repr

/-- State right after a successful `spawn` (`claude-code-session.ts`, lines
120-122): status running and the counter reset to 0. -/
def spawnedSessionState : SessionLineState :=
  { status := SessionStatus.running, lineNumber := 0 }

/-- Event sources of one session, each carrying the wall-clock ISO timestamp
observed when it is handled: a stdout/stderr line delivered by the readline
interface, a `sendCommand` call, or the process exit. -/
inductive SessionOp where
  | outputLine (content : String) (stream : OutputType) (timestamp : String)
  | sendCommand (command : String) (timestamp : String)
  | processExit (code : Option Int) (signal : Option String)
      (timestamp : String)

/-- One step of a session, embedding `handleOutputLine` (lines 193-207,
increment then emit), `sendCommand` (lines 265-296, throws without emitting
when the status is not running, otherwise increments and emits a command
event before writing to stdin) and `handleExit` (lines 224-257, sets status
terminated and emits a synthetic exit event with the incremented counter).
Returns the successor state and the list of emitted output events. -/
def sessionStep (sessionId agentId : String) (s : SessionLineState) :
    SessionOp → SessionLineState × List CliOutputEvent
  | SessionOp.outputLine content stream timestamp =>
      let next := s.lineNumber + 1
      ({ s with lineNumber := next },
        [{ sessionId := sessionId
           agentId := agentId
           type := match stream with
             | OutputType.stdout => OutputEventType.stdout
             | OutputType.stderr => OutputEventType.stderr
           content := content
           timestamp := timestamp
           lineNumber := next }])
  | SessionOp.sendCommand command timestamp =>
      if s.status = SessionStatus.running then
        let next := s.lineNumber + 1
        ({ s with lineNumber := next },
          [{ sessionId := sessionId
             agentId := agentId
             type := OutputEventType.command
             content := command
             timestamp := timestamp
             lineNumber := next }])
      else (s, [])
  | SessionOp.processExit code signal timestamp =>
      let next := s.lineNumber + 1
      ({ status := SessionStatus.terminated, lineNumber := next },
        [{ sessionId := sessionId
           agentId := agentId
           type := OutputEventType.exit
           content := "Process exited with code " ++
             (match code with
               | some c => toString c
               | none => "null") ++ ", signal " ++ signal.getD "null"
           timestamp := timestamp
           lineNumber := next }])

/-- Events emitted by a session over a sequence of operations. -/
def runSession (sessionId agentId : String) (s : SessionLineState) :
    List SessionOp → List CliOutputEvent
  | [] => []
  | op :: ops =>
      let step := sessionStep sessionId agentId s op
      step.2 ++ runSession sessionId agentId step.1 ops

/-- Redis `SET key value` over an association list with unique keys: any
previous binding of the key is replaced. -/
def setKV (l : List (String × String)) (k v : String) :
    List (String × String) :=
  (l.filter (fun p => p.1 ≠ k)) ++ [(k, v)]

/-- Redis `DEL key` over an association list. -/
def delKV (l : List (String × String)) (k : String) :
    List (String × String) :=
  l.filter (fun p => p.1 ≠ k)

/-- Redis `GET key` over an association list. -/
def getKV (l : List (String × String)) (k : String) : Option String :=
  (l.find? (fun p => p.1 = k)).map (fun p => p.2)

/-- Redis `SADD` over a set represented as membership pairs. -/
def saddPair (l : List (String × String)) (k v : String) :
    List (String × String) :=
  if (k, v) ∈ l then l else l ++ [(k, v)]

/-- Redis `SREM` over a set represented as membership pairs. -/
def sremPair (l : List (String × String)) (k v : String) :
    List (String × String) :=
  l.filter (fun p => p ≠ (k, v))

/-- Session metadata (`cli-session.interfaces.ts`, `CliSessionMetadata`).
The ISO timestamp strings are embedded as their epoch-millisecond values,
which is how the health monitor compares them (`new Date(s).getTime()`). -/
structure CliSessionMetadata where
  sessionId : String
  agentId : String
  workspaceId : String
  projectId : String
  pid : Nat
  status : SessionStatus
  task : String
  startedAt : Int
  lastHeartbeat : Int
  terminatedAt : Option Int
deriving DecidableEq, Repr

/-- The Redis key families owned by `CliSessionRedisService`
(`cli-session-redis.service.ts`): the `cli:session:{id}` hashes, the
`cli:workspace:{ws}:sessions` set memberships and the `cli:agent:{agent}`
string keys.  TTLs only bound lifetimes and are not embedded. -/
structure RedisState where
  sessions : List CliSessionMetadata
  workspaceSets : List (String × String)
  agentKeys : List (String × String)
deriving DecidableEq, Repr

/-- Redis state with no keys. -/
def emptyRedisState : RedisState :=
  { sessions := [], workspaceSets := [], agentKeys := [] }

/-- Embedding of `CliSessionRedisService.getSession` (`cli.module.ts` second
part, lines 371-393): the hash at `cli:session:{sessionId}`, or `null`. -/
def getSessionR (r : RedisState) (sessionId : String) :
    Option CliSessionMetadata :=
  r.sessions.find? (fun m => m.sessionId = sessionId)

/-- Field merge of `HSET` for `storeSession`: every field is written except
`terminatedAt`, which is only written when present in the new metadata, so a
previously stored `terminatedAt` survives.  (Relevant only on sessionId
reuse, which fresh UUIDs preclude.) -/
def hsetSessionMerge (old new : CliSessionMetadata) : CliSessionMetadata :=
  { new with terminatedAt := new.terminatedAt.orElse (fun _ => old.terminatedAt) }

/-- Embedding of `CliSessionRedisService.storeSession`
(`cli.module.ts` second part, lines 336-363): write the session hash, add
the session to its workspace set, and `SET cli:agent:{agentId}` to the new
sessionId — overwriting whatever session the agent pointer referenced. -/
def storeSession (r : RedisState) (metadata : CliSessionMetadata) :
    RedisState :=
  let sessions :=
    if (r.sessions.find? (fun m => m.sessionId = metadata.sessionId)).isSome
    then r.sessions.map (fun old =>
      if old.sessionId = metadata.sessionId then hsetSessionMerge old metadata
      else old)
    else r.sessions ++ [metadata]
  { sessions := sessions
    workspaceSets := saddPair r.workspaceSets metadata.workspaceId
      metadata.sessionId
    agentKeys := setKV r.agentKeys metadata.agentId metadata.sessionId }

/-- Embedding of `CliSessionRedisService.deleteSession` (lines 400-420):
read the metadata first, then remove the session hash, the workspace-set
membership and the agent pointer; an unknown id is a no-op. -/
def deleteSession (r : RedisState) (sessionId : String) : RedisState :=
  match getSessionR r sessionId with
  | none => r
  | some metadata =>
      { sessions := r.sessions.filter (fun m => m.sessionId ≠ sessionId)
        workspaceSets := sremPair r.workspaceSets metadata.workspaceId
          sessionId
        agentKeys := delKV r.agentKeys metadata.agentId }

/-- Embedding of `CliSessionRedisService.updateStatus` (lines 476-485) on an
existing record: write `status`, and when it is `terminated` also write
`terminatedAt` with the current time. -/
def updateStatus (r : RedisState) (sessionId : String)
    (status : SessionStatus) (now : Int) : RedisState :=
  { r with sessions := r.sessions.map (fun m =>
      if m.sessionId = sessionId then
        { m with
          status := status
          terminatedAt :=
            if status = SessionStatus.terminated then some now
            else m.terminatedAt }
      else m) }

/-- Embedding of `CliSessionRedisService.updateHeartbeat` (lines 427-435) on
an existing record: write `lastHeartbeat` and refresh the TTL. -/
def updateHeartbeat (r : RedisState) (sessionId : String) (now : Int) :
    RedisState :=
  { r with sessions := r.sessions.map (fun m =>
      if m.sessionId = sessionId then { m with lastHeartbeat := now }
      else m) }

/-- Embedding of `CliSessionRedisService.getWorkspaceSessions`
(lines 443-446). -/
def getWorkspaceSessions (r : RedisState) (workspaceId : String) :
    List String :=
  (r.workspaceSets.filter (fun p => p.1 = workspaceId)).map (fun p => p.2)

/-- Embedding of `CliSessionRedisService.getWorkspaceSessionCount`
(lines 454-457). -/
def getWorkspaceSessionCount (r : RedisState) (workspaceId : String) : Nat :=
  (getWorkspaceSessions r workspaceId).length

/-- Embedding of `CliSessionRedisService.getAllSessionIds` (lines 541-572):
the ids of all stored `cli:session:*` hashes.  The 100-per-page scan and the
10000-id cap only bound the traversal and are not embedded. -/
def getAllSessionIds (r : RedisState) : List String :=
  r.sessions.map (fun m => m.sessionId)

/-- Session-manager configuration (`cli-session.interfaces.ts`,
`SessionManagerConfig`). -/
structure SessionManagerConfig where
  maxConcurrentSessions : Nat
  heartbeatInterval : Nat
  staleThreshold : Nat
  healthCheckInterval : Nat
  sessionTtl : Nat
  terminationTimeout : Nat
deriving DecidableEq, Repr

/-- Default session configuration (`DEFAULT_SESSION_CONFIG`). -/
def defaultSessionConfig : SessionManagerConfig :=
  { maxConcurrentSessions := 10
    heartbeatInterval := 30000
    staleThreshold := 300000
    healthCheckInterval := 60000
    sessionTtl := 86400
    terminationTimeout := 5000 }

/-- In-memory view of one `ClaudeCodeSession` object held in the
supervisor's `sessions` map: its id, owning agent and process status. -/
structure MemSession where
  sessionId : String
  agentId : String
  status : SessionStatus
deriving DecidableEq, Repr

/-- State owned by `SessionManager` (`session-history.service.ts` second
part): the in-memory `sessions` and `agentToSession` maps plus the shared
Redis state.  Heartbeat timers and event listeners schedule behavior and
are not embedded. -/
structure SupervisorState where
  memSessions : List MemSession
  agentToSession : List (String × String)
  redis : RedisState
deriving DecidableEq, Repr

/-- Supervisor state at construction. -/
def initialSupervisorState : SupervisorState :=
  { memSessions := [], agentToSession := [], redis := emptyRedisState }

/-- Embedding of `SessionManager.validateSessionParams` (lines 311-341),
restricted to its non-empty checks.  The source additionally rejects
whitespace-only strings (it trims before the emptiness test) and malformed
ids that look like 36-character UUIDs; both only add further rejection
cases and none of the checked claims involves such inputs. -/
def validateSessionParams (agentId task workspaceId projectId : String) :
    Bool :=
  agentId ≠ "" && workspaceId ≠ "" && projectId ≠ "" && task ≠ ""

/-- Embedding of `SessionManager.createSession` (`session-history.service.ts`
second part, lines 354-420): validate the parameters, reject when the
workspace set already holds `maxConcurrentSessions` ids, then spawn
(embedded as the fresh `sessionId`/`pid` arguments), store the metadata
(which overwrites the agent pointer), and record the handle in both
in-memory maps.  No check of an existing session for the agent is made
anywhere. -/
def createSession (cfg : SessionManagerConfig) (st : SupervisorState)
    (agentId task workspaceId projectId sessionId : String) (now : Int)
    (pid : Nat) : Except String SupervisorState :=
  if !(validateSessionParams agentId task workspaceId projectId) then
    Except.error "InvalidArgument"
  else if cfg.maxConcurrentSessions ≤
      getWorkspaceSessionCount st.redis workspaceId then
    Except.error "Maximum concurrent sessions reached for workspace"
  else
    let metadata : CliSessionMetadata :=
      { sessionId := sessionId
        agentId := agentId
        workspaceId := workspaceId
        projectId := projectId
        pid := pid
        status := SessionStatus.running
        task := task
        startedAt := now
        lastHeartbeat := now
        terminatedAt := none }
    Except.ok
      { memSessions := st.memSessions ++
          [{ sessionId := sessionId, agentId := agentId,
             status := SessionStatus.running }]
        agentToSession := setKV st.agentToSession agentId sessionId
        redis := storeSession st.redis metadata }

/-- Embedding of `SessionManager.cleanupSession` (lines 542-553): remove the
session from both in-memory maps (the agent entry is deleted by agent key,
whatever it points to) and delete the Redis records. -/
def cleanupSession (st : SupervisorState) (sessionId agentId : String) :
    SupervisorState :=
  { memSessions := st.memSessions.filter (fun m => m.sessionId ≠ sessionId)
    agentToSession := delKV st.agentToSession agentId
    redis := deleteSession st.redis sessionId }

/-- Embedding of `SessionManager.terminateSession` (lines 460-475): an
unknown id succeeds silently without touching any state; a known id has its
process terminated and is then cleaned up from memory and Redis. -/
def terminateSession (st : SupervisorState) (sessionId : String) :
    SupervisorState :=
  match st.memSessions.find? (fun m => m.sessionId = sessionId) with
  | none => st
  | some ms => cleanupSession st sessionId ms.agentId

/-- Embedding of the process-exit path
(`SessionManager.handleSessionTerminated`, lines 524-534, triggered by the
terminated listener): a session still known in memory is cleaned up; an
unknown one is ignored. -/
def handleSessionTerminated (st : SupervisorState) (sessionId : String) :
    SupervisorState :=
  match st.memSessions.find? (fun m => m.sessionId = sessionId) with
  | none => st
  | some ms => cleanupSession st sessionId ms.agentId

/-- Supervisor operations: a `createSession` call (with the fresh sessionId
and pid of the spawn), a `terminateSession` call, and a process exit. -/
inductive SupervisorOp where
  | create (agentId task workspaceId projectId sessionId : String)
      (now : Int) (pid : Nat)
  | terminate (sessionId : String)
  | exited (sessionId : String)

/-- One supervisor operation applied to the state; a failed `createSession`
surfaces to its caller and leaves the state unchanged. -/
def supervisorStep (cfg : SessionManagerConfig) (st : SupervisorState) :
    SupervisorOp → SupervisorState
  | SupervisorOp.create agentId task workspaceId projectId sessionId now
      pid =>
      match createSession cfg st agentId task workspaceId projectId
        sessionId now pid with
      | Except.ok st2 => st2
      | Except.error _ => st
  | SupervisorOp.terminate sessionId => terminateSession st sessionId
  | SupervisorOp.exited sessionId => handleSessionTerminated st sessionId

/-- Run a sequence of supervisor operations from the initial state. -/
def runSupervisor (cfg : SessionManagerConfig) (ops : List SupervisorOp) :
    SupervisorState :=
  ops.foldl (supervisorStep cfg) initialSupervisorState

/-- Sessions currently running in the supervisor and owned by an agent. -/
def runningSessionsOwnedBy (st : SupervisorState) (agentId : String) :
    List String :=
  (st.memSessions.filter (fun m =>
    m.status = SessionStatus.running && m.agentId = agentId)).map
    (fun m => m.sessionId)

/-- Number of live `cli:agent:{agentId}` bindings for one agent. -/
def agentKeyCount (r : RedisState) (agentId : String) : Nat :=
  (r.agentKeys.filter (fun p => p.1 = agentId)).length

/-- A `cli:session_stale` notification payload
(`health-monitor.service.ts`, `HealthMonitorEvents`): sessionId, agentId and
the stale `lastHeartbeat`. -/
structure StaleEvent where
  sessionId : String
  agentId : String
  lastHeartbeat : Int
deriving DecidableEq, Repr

/-- Observable outcome of one health-monitor pass
(`HealthMonitor.performHealthCheck`): the counts of the published
`health_check_complete` snapshot (memory usage and wall-clock timestamp are
not embedded), the emitted `cli:session_stale` events, the
`terminateSession` calls made, and the state after the pass. -/
structure HealthPassResult where
  totalSessions : Nat
  activeSessions : Nat
  staleSessions : Nat
  terminatedSessions : Nat
  staleEvents : List StaleEvent
  terminationCalls : List String
  state : SupervisorState
deriving Repr

/-- Embedding of `HealthMonitor.handleStaleSession`
(`health-monitor.service.ts`, lines 198-231) given the already-emitted
event: call `SessionManager.terminateSession`; the call can only throw while
the session is known to the supervisor (an unknown id returns before any
awaited work), and `termFails` says whether it does.  On a throw the monitor
falls back to writing `status = terminated` directly to the store; on a
silent no-op (unknown id) nothing at all changes. -/
def handleStaleSession (termFails : String → Bool) (now : Int)
    (st : SupervisorState) (metadata : CliSessionMetadata) :
    SupervisorState :=
  match st.memSessions.find? (fun m => m.sessionId = metadata.sessionId) with
  | none => st
  | some ms =>
      if termFails metadata.sessionId then
        { st with redis := (updateStatus st.redis metadata.sessionId
            SessionStatus.terminated now) }
      else cleanupSession st metadata.sessionId ms.agentId

/-- One session id examined during a health pass
(`HealthMonitor.performHealthCheck`, lines 145-167): missing metadata is
skipped, `terminated` records are counted and skipped, records whose
heartbeat is older than `staleThreshold` are counted stale and handled, the
rest are counted active. -/
def healthCheckSessionId (staleThreshold : Int) (termFails : String → Bool)
    (now : Int) (acc : HealthPassResult) (sessionId : String) :
    HealthPassResult :=
  match getSessionR acc.state.redis sessionId with
  | none => acc
  | some metadata =>
      if metadata.status = SessionStatus.terminated then
        { acc with terminatedSessions := acc.terminatedSessions + 1 }
      else if staleThreshold < now - metadata.lastHeartbeat then
        { acc with
          staleSessions := acc.staleSessions + 1
          staleEvents := acc.staleEvents ++
            [{ sessionId := metadata.sessionId
               agentId := metadata.agentId
               lastHeartbeat := metadata.lastHeartbeat }]
          terminationCalls := acc.terminationCalls ++ [metadata.sessionId]
          state := handleStaleSession termFails now acc.state metadata }
      else { acc with activeSessions := acc.activeSessions + 1 }

/-- Embedding of `HealthMonitor.performHealthCheck` (lines 132-184): take
the id list once, then examine each id against the evolving state. -/
def performHealthCheck (staleThreshold : Int) (termFails : String → Bool)
    (now : Int) (st : SupervisorState) : HealthPassResult :=
  let sessionIds := getAllSessionIds st.redis
  sessionIds.foldl (healthCheckSessionId staleThreshold termFails now)
    { totalSessions := sessionIds.length
      activeSessions := 0
      staleSessions := 0
      terminatedSessions := 0
      staleEvents := []
      terminationCalls := []
      state := st }

/-- Association list with no key bound twice (the key-value view of the
Redis string keys, which a real Redis instance guarantees). -/
def NodupKeys (l : List (String × String)) : Prop :=
  (l.map (fun p => p.1)).Nodup

/-- Two `createSession` calls for the same agent, different fresh session
ids. -/
def c1CounterexampleOps : List SupervisorOp :=
  [SupervisorOp.create "agent-1" "do x" "ws-1" "prj-1" "session-1" 0 41,
   SupervisorOp.create "agent-1" "do x" "ws-1" "prj-1" "session-2" 1000 42]

/-- Supervisor state after the first of the two creates. -/
def c1FirstState : SupervisorState :=
  runSupervisor defaultSessionConfig
    [SupervisorOp.create "agent-1" "do x" "ws-1" "prj-1" "session-1" 0 41]

/-- Supervisor state after both creates. -/
def c1SecondState : SupervisorState :=
  runSupervisor defaultSessionConfig c1CounterexampleOps

/-- Store-only stale session record: its heartbeat is 6 minutes old at the
first pass and no supervisor holds it in memory. -/
def c2StaleMetadata : CliSessionMetadata :=
  { sessionId := "session-9"
    agentId := "agent-9"
    workspaceId := "ws-1"
    projectId := "prj-1"
    pid := 77
    status := SessionStatus.running
    task := "do x"
    startedAt := 0
    lastHeartbeat := 0
    terminatedAt := none }

/-- State whose store holds only `c2StaleMetadata`, with empty in-memory
maps (as after an orchestrator restart). -/
def c2StoreOnlyState : SupervisorState :=
  { memSessions := []
    agentToSession := []
    redis :=
      { sessions := [c2StaleMetadata]
        workspaceSets := [("ws-1", "session-9")]
        agentKeys := [("agent-9", "session-9")] } }

/-- In-memory handle of the stale session, for the supervised variant. -/
def c2MemSession : MemSession :=
  { sessionId := "session-9"
    agentId := "agent-9"
    status := SessionStatus.running }

/-- Same store as `c2StoreOnlyState` but with the session also held in the
supervisor's memory map. -/
def c2SupervisedState : SupervisorState :=
  { memSessions := [c2MemSession]
    agentToSession := [("agent-9", "session-9")]
    redis :=
      { sessions := [c2StaleMetadata]
        workspaceSets := [("ws-1", "session-9")]
        agentKeys := [("agent-9", "session-9")] } }

end DevOS

namespace DevOS


/-- C7: for every model id and token counts, `estimateCost` returns
`(input * inputPer1M + output * outputPer1M) / 1e6` whenever the pricing
lookup succeeds, and `-1` whenever the pricing lookup fails. -/
theorem estimateCost_spec (fetch : RegistryFetch) (modelId : String)
    (inputTokens outputTokens : ℚ) :
    (∀ pricing, getModelPricing fetch modelId = Except.ok pricing →
      estimateCost fetch modelId inputTokens outputTokens =
        (inputTokens * pricing.inputPer1M +
          outputTokens * pricing.outputPer1M) / 1000000) ∧
    (∀ e, getModelPricing fetch modelId = Except.error e →
      estimateCost fetch modelId inputTokens outputTokens = -1) := by
  constructor
  · intro pricing h
    simp [estimateCost, h]
  · intro e h
    simp [estimateCost, h]

/-- Witness for C7 at concrete inputs: the sample model prices 1000 input and
500 output tokens at 0.0105 USD, and an unknown model id yields -1. -/
theorem estimateCost_spec_witness :
    estimateCost sampleFetch "claude-sonnet-4-20250514" 1000 500 =
      (1000 * (3 : ℚ) + 500 * 15) / 1000000 ∧
    estimateCost sampleFetch "no-such-model" 1000 500 = -1 := by
  constructor
  · exact (estimateCost_spec sampleFetch "claude-sonnet-4-20250514"
      1000 500).1 samplePricing (by rfl)
  · exact (estimateCost_spec sampleFetch "no-such-model" 1000 500).2
      ("Model no-such-model not found in registry") (by rfl)

/-- C5: with `forceModel` set and a non-empty provider list, the force-model
branch of `routeTask` selects exactly the forced model whenever it is in the
catalog and its provider is enabled (appending a WARNING to the reason when
capability validation fails, rather than rejecting), and raises a
`RoutingError` exactly when the model is absent from the catalog or its
provider is not enabled. -/
theorem handleForceModel_spec (catalog : List ModelDefinition)
    (request : TaskRoutingRequest) (cfg : WorkspaceRoutingConfig)
    (modelId : String) (hforce : request.forceModel = some modelId)
    (hproviders : cfg.enabledProviders ≠ []) :
    (∀ model, catalog.find? (fun m => m.modelId = modelId) = some model →
      model.provider ∈ cfg.enabledProviders →
      ∃ d, handleForceModel catalog request cfg modelId = Except.ok d ∧
        d.selectedModel = modelId ∧ d.provider = model.provider ∧
        ((validateCapabilities model request).valid = false →
          d.reason = "Forced model selection: " ++ modelId ++
            " (WARNING: " ++
            (validateCapabilities model request).reason.getD "" ++ ")")) ∧
    ((∃ e, handleForceModel catalog request cfg modelId = Except.error e) ↔
      (catalog.find? (fun m => m.modelId = modelId) = none ∨
        ∃ model, catalog.find? (fun m => m.modelId = modelId) = some model ∧
          model.provider ∉ cfg.enabledProviders)) := by
  constructor
  · intro model hfind hmem
    have hok : handleForceModel catalog request cfg modelId = Except.ok
        { selectedModel := modelId
          provider := model.provider
          reason :=
            if (validateCapabilities model request).valid then
              "Forced model selection: " ++ modelId
            else
              "Forced model selection: " ++ modelId ++ " (WARNING: " ++
                (validateCapabilities model request).reason.getD "" ++ ")"
          estimatedCost :=
            calculateCostForRequest (catalogFetch catalog) modelId request
          alternatives := [] } := by
      simp [handleForceModel, hfind, hmem]
    refine ⟨_, hok, rfl, rfl, ?_⟩
    intro hinvalid
    simp [hinvalid]
  · constructor
    · rintro ⟨e, he⟩
      cases hfind : catalog.find? (fun m => m.modelId = modelId) with
      | none => exact Or.inl rfl
      | some model =>
        refine Or.inr ⟨model, rfl, fun hmem => ?_⟩
        simp [handleForceModel, hfind, hmem] at he
    · rintro (hfind | ⟨model, hfind, hmem⟩)
      · simp [handleForceModel, hfind]
      · simp [handleForceModel, hfind, hmem]

/-- Witness for C5: on the one-model catalog, forcing the sample model with
its provider enabled yields an ok decision selecting it. -/
theorem handleForceModel_spec_witness :
    codingRequest.forceModel = some "claude-sonnet-4-20250514" ∧
    anthropicOnlyConfig.enabledProviders ≠ [] ∧
    ∃ d, handleForceModel [sampleSonnet] codingRequest anthropicOnlyConfig
        "claude-sonnet-4-20250514" = Except.ok d ∧
      d.selectedModel = "claude-sonnet-4-20250514" := by
  refine ⟨rfl, by decide, ?_⟩
  obtain ⟨d, hd, hsel, -, -⟩ :=
    (handleForceModel_spec [sampleSonnet] codingRequest anthropicOnlyConfig
      "claude-sonnet-4-20250514" rfl (by decide)).1 sampleSonnet (by rfl)
      (by decide)
  exact ⟨d, hd, hsel⟩

/-- Counterexample to C6: a model whose `suitableFor` is exactly
`[embedding]` but whose `supportsEmbedding` flag is false passes capability
validation for a coding request, so the claimed unconditional rejection is
false. -/
theorem validateCapabilities_embeddingOnly_counterexample :
    embeddingOnlyNoFlagModel.suitableFor = [TaskType.embedding] ∧
    plainCodingRequest.taskType ≠ TaskType.embedding ∧
    (validateCapabilities embeddingOnlyNoFlagModel plainCodingRequest).valid
      = true := by
  refine ⟨rfl, by decide, ?_⟩
  rfl

/-- C6 as amended: for a non-embedding task, capability validation rejects
every model whose `suitableFor` is exactly `[embedding]` **and** whose
`supportsEmbedding` flag is true; the flag is part of the rejection rule. -/
theorem validateCapabilities_embeddingOnly_amended
    (model : ModelDefinition) (request : TaskRoutingRequest)
    (htask : request.taskType ≠ TaskType.embedding)
    (hflag : model.supportsEmbedding = true)
    (hsuit : model.suitableFor = [TaskType.embedding]) :
    (validateCapabilities model request).valid = false := by
  unfold validateCapabilities
  repeat' split
  all_goals simp_all

/-- Witness applying the amended C6 theorem at a concrete model and request. -/
theorem validateCapabilities_embeddingOnly_amended_witness :
    (validateCapabilities embeddingSmallModel plainCodingRequest).valid
      = false :=
  validateCapabilities_embeddingOnly_amended embeddingSmallModel
    plainCodingRequest (by decide) rfl rfl

/-- C10: whatever the parser said about the line, an output event of source
type `command` is transformed into a stream event of type `command` carrying
no metadata at all. -/
theorem transformEvent_command_spec (parsed : ParsedOutputResult)
    (event : CliOutputEvent) (context : SessionContext)
    (hcmd : event.type = OutputEventType.command) :
    (transformEvent parsed event context).type = CliStreamEventType.command ∧
    (transformEvent parsed event context).metadata = none := by
  constructor <;> simp [transformEvent, hcmd]

/-- Witness for C10: a concrete command event whose content matches a
file-change pattern still maps to type `command` with no metadata. -/
theorem transformEvent_command_spec_witness :
    (transformEvent fileChangeParsed injectedCommandEvent sampleContext).type
      = CliStreamEventType.command ∧
    (transformEvent fileChangeParsed injectedCommandEvent
      sampleContext).metadata = none :=
  transformEvent_command_spec fileChangeParsed injectedCommandEvent
    sampleContext rfl

/-- Helper: the retry loop under an oracle that fails every remaining
attempt makes all remaining attempts, sleeps after each failed attempt
except the last of the configured budget, and increments the failure counter
once. -/
theorem publishWithRetryGo_allFail (cfg : PublisherConfig)
    (fails : Nat → Bool) (attempt remaining : Nat)
    (hsum : attempt + remaining = cfg.retryAttempts)
    (hf : ∀ i, attempt ≤ i → i < cfg.retryAttempts → fails i = true) :
    publishWithRetryGo cfg fails attempt remaining =
      { success := false
        attemptsMade := remaining
        backoffDelays := (List.range (remaining - 1)).map
          (fun j => cfg.retryDelayMs * 2 ^ (attempt + j))
        failureIncrement := 1 } := by
  induction remaining generalizing attempt with
  | zero => simp [publishWithRetryGo]
  | succ r ih =>
    have hfa : fails attempt = true := hf attempt le_rfl (by omega)
    have hrest := ih (attempt + 1) (by omega)
      (fun i h1 h2 => hf i (by omega) h2)
    unfold publishWithRetryGo
    rw [hfa]
    simp only [if_true, hrest]
    by_cases hr : r = 0
    · subst hr
      have hnot : ¬ attempt < cfg.retryAttempts - 1 := by omega
      simp [hnot]
    · have hlt : attempt < cfg.retryAttempts - 1 := by omega
      simp only [hlt, if_true]
      obtain ⟨r0, rfl⟩ : ∃ r0, r = r0 + 1 := ⟨r - 1, by omega⟩
      have hdel : cfg.retryDelayMs * 2 ^ attempt ::
          (List.range r0).map
            (fun j => cfg.retryDelayMs * 2 ^ (attempt + 1 + j)) =
          (List.range (r0 + 1)).map
            (fun j => cfg.retryDelayMs * 2 ^ (attempt + j)) := by
        rw [List.range_succ_eq_map, List.map_cons, List.map_map]
        refine congrArg₂ List.cons (by rw [Nat.add_zero]) ?_
        refine List.map_congr_left fun j hj => ?_
        simp only [Function.comp_apply]
        have hx : attempt + 1 + j = attempt + (j + 1) := by omega
        rw [hx]
      simp only [Nat.add_sub_cancel, hdel]

/-- Counterexample to C3: with the default configuration (3 attempts, base
100 ms) and every attempt failing, the observed back-off delays are 100 and
200 ms, a cumulative 300 ms — not the cumulative 100 + 200 + 400 = 700 ms
asserted by the claim: no delay is slept after the final attempt. -/
theorem publishWithRetry_backoff_counterexample :
    (publishWithRetry defaultPublisherConfig (fun _ => true)).backoffDelays
      = [100, 200] ∧
    ((publishWithRetry defaultPublisherConfig
      (fun _ => true)).backoffDelays).sum = 300 ∧
    ¬ ((publishWithRetry defaultPublisherConfig
      (fun _ => true)).backoffDelays).sum = 700 := by
  refine ⟨rfl, rfl, ?_⟩
  decide

/-- C3 as amended: a message whose publish attempts all fail is retried
exactly `retryAttempts` times, a back-off of `retryDelayMs * 2 ^ attempt` is
slept after every failed attempt except the final one (so with the defaults
the cumulative back-off is 100 + 200 = 300 ms), the message is then dropped
(`success = false`) and the failure counter is incremented by one. -/
theorem publishWithRetry_allFail (cfg : PublisherConfig)
    (fails : Nat → Bool)
    (hf : ∀ i, i < cfg.retryAttempts → fails i = true) :
    publishWithRetry cfg fails =
      { success := false
        attemptsMade := cfg.retryAttempts
        backoffDelays := (List.range (cfg.retryAttempts - 1)).map
          (fun j => cfg.retryDelayMs * 2 ^ j)
        failureIncrement := 1 } := by
  have h := publishWithRetryGo_allFail cfg fails 0 cfg.retryAttempts
    (by omega) (fun i _ h2 => hf i h2)
  rw [publishWithRetry, h]
  simp

/-- Witness for the amended C3 at the default configuration: three attempts,
delays 100 and 200 ms, one failure-counter increment. -/
theorem publishWithRetry_allFail_witness :
    publishWithRetry defaultPublisherConfig (fun _ => true) =
      { success := false
        attemptsMade := defaultPublisherConfig.retryAttempts
        backoffDelays :=
          (List.range (defaultPublisherConfig.retryAttempts - 1)).map
            (fun j => defaultPublisherConfig.retryDelayMs * 2 ^ j)
        failureIncrement := 1 } :=
  publishWithRetry_allFail defaultPublisherConfig (fun _ => true)
    (fun _ _ => rfl)

/-- Helper: the retry loop increments the failure counter exactly when every
remaining attempt fails, and then by one. -/
theorem publishWithRetryGo_failureIncrement (cfg : PublisherConfig)
    (fails : Nat → Bool) (attempt remaining : Nat) :
    (publishWithRetryGo cfg fails attempt remaining).failureIncrement =
      if (List.range remaining).all (fun j => fails (attempt + j)) then 1
      else 0 := by
  induction remaining generalizing attempt with
  | zero => simp [publishWithRetryGo]
  | succ r ih =>
    unfold publishWithRetryGo
    by_cases hfa : fails attempt = true
    · simp only [hfa, if_true, ih (attempt + 1)]
      rw [List.range_succ_eq_map, List.all_cons, List.all_map]
      simp only [Nat.add_zero, hfa, Bool.true_and]
      have hx : ((fun j => fails (attempt + j)) ∘ Nat.succ) =
          (fun j => fails (attempt + 1 + j)) := by
        funext j
        simp only [Function.comp_apply, Nat.succ_eq_add_one]
        have hy : attempt + (j + 1) = attempt + 1 + j := by omega
        rw [hy]
      rw [hx]
    · simp only [Bool.not_eq_true] at hfa
      rw [List.range_succ_eq_map]
      simp [hfa]

/-- Helper: one `publishWithRetry` increments the failure counter by one on
a message that exhausts its attempts and by zero otherwise. -/
theorem publishWithRetry_failureIncrement (cfg : PublisherConfig)
    (fails : Nat → Bool) :
    (publishWithRetry cfg fails).failureIncrement =
      if eventAllAttemptsFail cfg fails then 1 else 0 := by
  rw [publishWithRetry, publishWithRetryGo_failureIncrement,
    eventAllAttemptsFail]
  simp [Nat.zero_add]

/-- Helper: summing the per-message failure increments of a batch counts the
messages that exhaust all their attempts. -/
theorem failureIncrement_sum (cfg : PublisherConfig)
    (l : List (Nat → Bool)) :
    ((l.map (fun f => (publishWithRetry cfg f).failureIncrement)).sum =
      l.countP (fun f => eventAllAttemptsFail cfg f)) := by
  induction l with
  | nil => simp
  | cons f t ih =>
    rw [List.map_cons, List.sum_cons, ih, List.countP_cons,
      publishWithRetry_failureIncrement]
    by_cases h : eventAllAttemptsFail cfg f
    · simp [h, Nat.add_comm]
    · simp [h]

/-- Helper: a flush empties the pending buffer. -/
theorem flushState_pendingEvents (cfg : PublisherConfig)
    (s : PublisherState) : (flushState cfg s).pendingEvents = [] := by
  unfold flushState
  split
  · next h =>
    exact List.isEmpty_iff.mp h
  · rfl

/-- Helper: a flush preserves the accounting relation. -/
theorem accounts_flushState (cfg : PublisherConfig) (s : PublisherState)
    (oracles : List (Nat → Bool)) (h : Accounts cfg s oracles) :
    Accounts cfg (flushState cfg s) oracles := by
  obtain ⟨flushed, hsplit, hev, hfail⟩ := h
  unfold flushState
  split
  · exact ⟨flushed, hsplit, hev, hfail⟩
  · refine ⟨flushed ++ s.pendingEvents.map (fun m => m.attemptFails),
      ?_, ?_, ?_⟩
    · simpa using hsplit
    · simp only [updateMetrics, List.length_append, List.length_map, hev]
    · simp only [updateMetrics, List.countP_append, hfail]
      congr 1
      have hsum := failureIncrement_sum cfg
        (s.pendingEvents.map (fun m => m.attemptFails))
      simpa [List.map_map, Function.comp_def] using hsum

/-- Helper: a `publish` call extends the accounting relation by the accepted
message. -/
theorem accounts_publishCall (cfg : PublisherConfig) (s : PublisherState)
    (oracles : List (Nat → Bool)) (parsed : ParsedOutputResult)
    (event : CliOutputEvent) (context : SessionContext)
    (attemptFails : Nat → Bool) (h : Accounts cfg s oracles) :
    Accounts cfg (publishCall cfg s parsed event context attemptFails)
      (oracles ++ [attemptFails]) := by
  obtain ⟨flushed, hsplit, hev, hfail⟩ := h
  have henq : Accounts cfg { s with pendingEvents := s.pendingEvents ++
      [{ event := transformEvent parsed event context
         channel := "cli-events:" ++ context.workspaceId
         attemptFails := attemptFails }] } (oracles ++ [attemptFails]) := by
    refine ⟨flushed, ?_, hev, hfail⟩
    simp [hsplit]
  by_cases hlen : cfg.maxBatchSize ≤ (s.pendingEvents ++
      [({ event := transformEvent parsed event context
          channel := "cli-events:" ++ context.workspaceId
          attemptFails := attemptFails } : PendingMessage)]).length
  · simp only [publishCall]
    rw [if_pos hlen]
    exact accounts_flushState cfg _ _ henq
  · simp only [publishCall]
    rw [if_neg hlen]
    exact henq

/-- Helper: running any operation sequence from an accounted state yields an
accounted state for the extended acceptance list. -/
theorem accounts_runOps (cfg : PublisherConfig) (ops : List PublisherOp) :
    ∀ (s : PublisherState) (oracles : List (Nat → Bool)),
      Accounts cfg s oracles →
      Accounts cfg (ops.foldl (publisherStep cfg) s)
        (oracles ++ acceptedOracles ops) := by
  induction ops with
  | nil =>
    intro s oracles h
    simpa [acceptedOracles] using h
  | cons op t ih =>
    intro s oracles h
    cases op with
    | publish parsed event context attemptFails =>
      have h1 := accounts_publishCall cfg s oracles parsed event context
        attemptFails h
      have h2 := ih _ _ h1
      simpa [acceptedOracles, List.filterMap_cons] using h2
    | flushTimer =>
      have h1 := accounts_flushState cfg s oracles h
      have h2 := ih _ _ h1
      simpa [acceptedOracles, List.filterMap_cons] using h2

/-- C4: after any sequence of publish calls and timer flushes followed by
the shutdown flush, the pending buffer is empty, `eventsPublished` accounts
for every accepted event, `publishFailures` counts exactly the accepted
events whose publish attempts were all exhausted, and (the publish path
being a total function of the state) no failure ever reaches the caller of
`publish`. -/
theorem publisher_conservation (cfg : PublisherConfig)
    (ops : List PublisherOp) :
    (shutdownPublisher cfg (runPublisher cfg ops)).pendingEvents = [] ∧
    (shutdownPublisher cfg
      (runPublisher cfg ops)).metrics.eventsPublished =
      (acceptedOracles ops).length ∧
    (shutdownPublisher cfg
      (runPublisher cfg ops)).metrics.publishFailures =
      (acceptedOracles ops).countP (fun f => eventAllAttemptsFail cfg f) := by
  have hinit : Accounts cfg initialPublisherState [] :=
    ⟨[], by simp [initialPublisherState], rfl, rfl⟩
  have hrun := accounts_runOps cfg ops initialPublisherState [] hinit
  rw [List.nil_append] at hrun
  have hfinal : Accounts cfg (shutdownPublisher cfg (runPublisher cfg ops))
      (acceptedOracles ops) :=
    accounts_flushState cfg _ _ hrun
  obtain ⟨flushed, hsplit, hev, hfail⟩ := hfinal
  have hpend : (shutdownPublisher cfg (runPublisher cfg ops)).pendingEvents
      = [] := flushState_pendingEvents cfg _
  rw [hpend] at hsplit
  simp only [List.map_nil, List.append_nil] at hsplit
  subst hsplit
  exact ⟨hpend, hev.symm ▸ rfl, by rw [hfail]⟩

/-- Helper: pushing to the front and trimming keeps the stored history equal
to the first `maxLines` entries of the reversed append sequence. -/
theorem historyOf_eq_take_reverse (cfg : HistoryConfig)
    (appended : List CliStreamEvent) :
    historyOf cfg appended = appended.reverse.take cfg.maxLines := by
  induction appended using List.reverseRecOn with
  | nil => simp [historyOf]
  | append_singleton l e ih =>
    rw [historyOf, List.foldl_append, List.foldl_cons, List.foldl_nil,
      ← historyOf, ih, addEvent, List.reverse_append]
    simp only [List.reverse_cons, List.reverse_nil, List.nil_append,
      List.singleton_append]
    cases hm : cfg.maxLines with
    | zero => simp
    | succ m =>
      rw [List.take_succ_cons, List.take_succ_cons, List.take_take]
      rw [Nat.min_eq_left (Nat.le_succ m)]

/-- C9: when the stored history holds more than `n` events, `getHistory`
with count `n` returns exactly the `n` most recently appended events, in
chronological (oldest-first) order — the newest suffix of the appended
sequence, not its oldest `n` events. -/
theorem getHistory_returns_newest_suffix (cfg : HistoryConfig)
    (appended : List CliStreamEvent) (n : Nat) (hn : 0 < n)
    (hlen : n < (historyOf cfg appended).length) :
    getHistory cfg (historyOf cfg appended) (some n) =
      appended.drop (appended.length - n) := by
  have hstored := historyOf_eq_take_reverse cfg appended
  have hmin : n < min cfg.maxLines appended.length := by
    have := hlen
    rw [hstored, List.length_take, List.length_reverse] at this
    exact this
  rw [getHistory, hstored]
  simp only [Option.getD_some]
  rw [List.take_take, Nat.min_eq_left (by omega),
    ← List.rtake_eq_reverse_take_reverse, List.rtake]

/-- Sample stream event maker for the history witness. -/
def historyEvent (i : Nat) : CliStreamEvent :=
  { sessionId := "session-1"
    agentId := "agent-1"
    projectId := "project-1"
    workspaceId := "ws-1"
    type := CliStreamEventType.output
    content := "line " ++ toString i
    timestamp := "2026-01-01T00:00:00.000Z"
    lineNumber := i
    metadata := none }

/-- Witness for C9: five appended events with `n = 2` return the last two in
chronological order. -/
theorem getHistory_returns_newest_suffix_witness :
    getHistory defaultHistoryConfig
      (historyOf defaultHistoryConfig
        [historyEvent 1, historyEvent 2, historyEvent 3, historyEvent 4,
          historyEvent 5]) (some 2) =
      [historyEvent 4, historyEvent 5] := by
  have h := getHistory_returns_newest_suffix defaultHistoryConfig
    [historyEvent 1, historyEvent 2, historyEvent 3, historyEvent 4,
      historyEvent 5] 2 (by decide) (by decide)
  rw [h]
  rfl

/-- Helper: from any state, the emitted line numbers are the consecutive
integers continuing the current counter. -/
theorem runSession_lineNumbers_map (sessionId agentId : String) :
    ∀ (ops : List SessionOp) (s : SessionLineState),
      (runSession sessionId agentId s ops).map (fun e => e.lineNumber) =
        List.range' (s.lineNumber + 1)
          (runSession sessionId agentId s ops).length := by
  intro ops
  induction ops with
  | nil => intro s; rfl
  | cons op t ih =>
    intro s
    cases op with
    | outputLine content stream timestamp =>
      simp only [runSession, sessionStep, List.singleton_append,
        List.map_cons, List.length_cons, ih]
      rw [List.range'_succ]
    | sendCommand command timestamp =>
      by_cases hrun : s.status = SessionStatus.running
      · simp only [runSession, sessionStep, hrun, if_true,
          List.singleton_append, List.map_cons, List.length_cons, ih]
        rw [List.range'_succ]
      · simp only [runSession, sessionStep, hrun, if_false,
          List.nil_append, ih]
    | processExit code signal timestamp =>
      simp only [runSession, sessionStep, List.singleton_append,
        List.map_cons, List.length_cons, ih]
      rw [List.range'_succ]

/-- C8: within one session (from a fresh spawn), the `lineNumber` fields of
all emitted output events — stdout and stderr lines, injected commands and
the synthetic exit event — are exactly `1, 2, 3, …` in emission order: a
strictly increasing sequence starting at 1. -/
theorem session_lineNumbers_spec (sessionId agentId : String)
    (ops : List SessionOp) :
    (runSession sessionId agentId spawnedSessionState ops).map
        (fun e => e.lineNumber) =
      List.range' 1
        (runSession sessionId agentId spawnedSessionState ops).length ∧
    ((runSession sessionId agentId spawnedSessionState ops).map
        (fun e => e.lineNumber)).Pairwise (· < ·) := by
  have h := runSession_lineNumbers_map sessionId agentId ops
    spawnedSessionState
  refine ⟨h, ?_⟩
  rw [h]
  exact List.pairwise_lt_range' ..

/-- Counterexample to C1: `createSession` never checks whether the agent
already owns a session, so after two successful creates for `agent-1` the
supervisor holds two concurrently running sessions owned by that agent, both
also recorded as `running` in the store. -/
theorem agentSession_uniqueness_counterexample :
    runningSessionsOwnedBy c1SecondState "agent-1" =
      ["session-1", "session-2"] ∧
    ¬ ((runningSessionsOwnedBy c1SecondState "agent-1").length ≤ 1) ∧
    ((c1SecondState.redis.sessions.filter (fun m =>
      m.status = SessionStatus.running && m.agentId = "agent-1")).length
      = 2) := by
  refine ⟨by decide, by decide, by decide⟩

/-- Helper: overwriting a key keeps association-list keys unique. -/
theorem nodupKeys_setKV (l : List (String × String)) (k v : String)
    (h : NodupKeys l) : NodupKeys (setKV l k v) := by
  unfold NodupKeys at h ⊢
  unfold setKV
  rw [List.map_append]
  refine List.Nodup.append ?_ (by simp) ?_
  · exact ((List.filter_sublist l).map (fun p => p.1)).nodup h
  · intro x hx hk
    simp only [List.map_cons, List.map_nil, List.mem_singleton] at hk
    subst hk
    simp only [List.mem_map, List.mem_filter] at hx
    obtain ⟨p, ⟨hp, hpk⟩, rfl⟩ := hx
    simp at hpk

/-- Helper: deleting a key keeps association-list keys unique. -/
theorem nodupKeys_delKV (l : List (String × String)) (k : String)
    (h : NodupKeys l) : NodupKeys (delKV l k) := by
  unfold NodupKeys at h ⊢
  unfold delKV
  exact ((List.filter_sublist l).map (fun p => p.1)).nodup h

/-- Helper: unique keys bound the number of bindings of any key by one. -/
theorem agentKeyCount_le_one (l : List (String × String)) (a : String)
    (h : (l.map (fun p => p.1)).Nodup) :
    (l.filter (fun p => p.1 = a)).length ≤ 1 := by
  induction l with
  | nil => simp
  | cons p t ih =>
    rw [List.map_cons, List.nodup_cons] at h
    by_cases hp : p.1 = a
    · have ht : t.filter (fun q => decide (q.1 = a)) = [] := by
        rw [List.filter_eq_nil_iff]
        intro q hq
        simp only [decide_eq_true_eq]
        intro hqa
        exact h.1 (List.mem_map.mpr ⟨q, hq, by rw [hqa, hp]⟩)
      simp [List.filter_cons, hp, ht]
    · rw [List.filter_cons_of_neg (by simp [hp])]
      exact ih h.2

/-- Helper: every supervisor-reachable Redis state has unique agent keys. -/
theorem runSupervisor_agentKeys_nodup (cfg : SessionManagerConfig)
    (ops : List SupervisorOp) :
    NodupKeys (runSupervisor cfg ops).redis.agentKeys := by
  suffices h : ∀ (l : List SupervisorOp) (st : SupervisorState),
      NodupKeys st.redis.agentKeys →
      NodupKeys (l.foldl (supervisorStep cfg) st).redis.agentKeys by
    exact h ops initialSupervisorState (by simp [initialSupervisorState,
      emptyRedisState, NodupKeys])
  intro l
  induction l with
  | nil => intro st h; exact h
  | cons op t ih =>
    intro st h
    refine ih _ ?_
    cases op with
    | create agentId task workspaceId projectId sessionId now pid =>
      simp only [supervisorStep]
      cases hc : createSession cfg st agentId task workspaceId projectId
        sessionId now pid with
      | error e => exact h
      | ok st2 =>
        unfold createSession at hc
        split at hc
        · exact absurd hc (by simp)
        · split at hc
          · exact absurd hc (by simp)
          · simp only [Except.ok.injEq] at hc
            subst hc
            exact nodupKeys_setKV _ _ _ h
    | terminate sessionId =>
      simp only [supervisorStep, terminateSession]
      cases hf : st.memSessions.find? (fun m => m.sessionId = sessionId) with
      | none => exact h
      | some ms =>
        simp only [cleanupSession, deleteSession]
        cases hg : getSessionR st.redis sessionId with
        | none => exact h
        | some metadata => exact nodupKeys_delKV _ _ h
    | exited sessionId =>
      simp only [supervisorStep, handleSessionTerminated]
      cases hf : st.memSessions.find? (fun m => m.sessionId = sessionId) with
      | none => exact h
      | some ms =>
        simp only [cleanupSession, deleteSession]
        cases hg : getSessionR st.redis sessionId with
        | none => exact h
        | some metadata => exact nodupKeys_delKV _ _ h

/-- Helper: reading back a freshly set key returns the new value. -/
theorem getKV_setKV (l : List (String × String)) (k v : String) :
    getKV (setKV l k v) k = some v := by
  unfold getKV setKV
  have h1 : (l.filter (fun p => decide (p.1 ≠ k))).find?
      (fun p => decide (p.1 = k)) = none := by
    rw [List.find?_eq_none]
    intro p hp
    rw [List.mem_filter] at hp
    simpa using hp.2
  rw [List.find?_append, h1]
  simp

/-- C1 as amended: the `cli:agent:{agentId}` pointer is a single string key,
so at most one live mapping exists per agent; but `createSession` performs
no existing-session check for the agent, so a successful create for an agent
that already owns a running session leaves both sessions concurrently
running and owned by that agent, with the agent pointer overwritten to the
new sessionId. -/
theorem agentSession_uniqueness_amended (cfg : SessionManagerConfig) :
    (∀ (ops : List SupervisorOp) (agentId : String),
      agentKeyCount (runSupervisor cfg ops).redis agentId ≤ 1) ∧
    (∀ (st : SupervisorState)
      (agentId task workspaceId projectId sessionId : String) (now : Int)
      (pid : Nat) (st2 : SupervisorState) (old : MemSession),
      createSession cfg st agentId task workspaceId projectId sessionId now
        pid = Except.ok st2 →
      old ∈ st.memSessions → old.agentId = agentId →
      old.status = SessionStatus.running → old.sessionId ≠ sessionId →
      old.sessionId ∈ runningSessionsOwnedBy st2 agentId ∧
      sessionId ∈ runningSessionsOwnedBy st2 agentId ∧
      old.sessionId ≠ sessionId ∧
      getKV st2.redis.agentKeys agentId = some sessionId) := by
  constructor
  · intro ops agentId
    exact agentKeyCount_le_one _ _ (runSupervisor_agentKeys_nodup cfg ops)
  · intro st agentId task workspaceId projectId sessionId now pid st2 old
      hok hold holdAgent holdRun holdNe
    unfold createSession at hok
    split at hok
    · exact absurd hok (by simp)
    · split at hok
      · exact absurd hok (by simp)
      · simp only [Except.ok.injEq] at hok
        subst hok
        refine ⟨?_, ?_, holdNe, ?_⟩
        · unfold runningSessionsOwnedBy
          refine List.mem_map.mpr ⟨old, ?_, rfl⟩
          rw [List.mem_filter]
          exact ⟨List.mem_append_left _ hold,
            by simp [holdRun, holdAgent]⟩
        · unfold runningSessionsOwnedBy
          refine List.mem_map.mpr
            ⟨{ sessionId := sessionId, agentId := agentId,
               status := SessionStatus.running }, ?_, rfl⟩
          rw [List.mem_filter]
          exact ⟨List.mem_append_right _ (by simp), by simp⟩
        · exact getKV_setKV _ _ _

/-- Witness for the amended C1: after the two concrete creates, the agent
pointer is unique and points at `session-2` while both sessions are running
and owned by `agent-1`. -/
theorem agentSession_uniqueness_amended_witness :
    agentKeyCount c1SecondState.redis "agent-1" ≤ 1 ∧
    ("session-1" ∈ runningSessionsOwnedBy c1SecondState "agent-1" ∧
      "session-2" ∈ runningSessionsOwnedBy c1SecondState "agent-1" ∧
      ("session-1" : String) ≠ "session-2" ∧
      getKV c1SecondState.redis.agentKeys "agent-1" = some "session-2") := by
  constructor
  · exact (agentSession_uniqueness_amended defaultSessionConfig).1
      c1CounterexampleOps "agent-1"
  · have h := (agentSession_uniqueness_amended defaultSessionConfig).2
      c1FirstState "agent-1" "do x" "ws-1" "prj-1" "session-2" 1000 42
      c1SecondState
      { sessionId := "session-1", agentId := "agent-1",
        status := SessionStatus.running }
      rfl (by decide) rfl rfl (by decide)
    exact h

/-- Counterexample to C2: a stale record whose session is unknown to the
supervisor (store-only, as after a restart).  The pass emits the stale event
and calls `terminateSession`, but that call is a silent no-op — it does not
throw, so the defensive `status = terminated` write never runs — and the
next pass counts the same record stale again instead of reporting
`staleSessions = 0`. -/
theorem healthMonitor_stale_counterexample :
    (performHealthCheck 300000 (fun _ => false) 360000
      c2StoreOnlyState).staleSessions = 1 ∧
    (performHealthCheck 300000 (fun _ => false) 360000
      c2StoreOnlyState).staleEvents =
      [{ sessionId := "session-9", agentId := "agent-9",
         lastHeartbeat := 0 }] ∧
    (performHealthCheck 300000 (fun _ => false) 360000
      c2StoreOnlyState).terminationCalls = ["session-9"] ∧
    ¬ ((performHealthCheck 300000 (fun _ => false) 420000
      (performHealthCheck 300000 (fun _ => false) 360000
        c2StoreOnlyState).state).staleSessions = 0) := by
  refine ⟨by decide, by decide, by decide, by decide⟩

/-- C2 as amended, for a store holding exactly the stale record: one pass
emits `SessionStale{sessionId, agentId, lastHeartbeat}` and calls
`terminateSession`; when the supervisor knows the session in memory the
record is gone from stale counting on every later pass (removed on a
successful termination, defensively marked `terminated` on a thrown one);
but when the session is unknown to the supervisor, `terminateSession` is a
silent no-op, the state is unchanged, and every later pass past the
threshold counts the record stale again. -/
theorem healthMonitor_stale_amended (staleThreshold now : Int)
    (termFails : String → Bool) (metadata : CliSessionMetadata)
    (mem : List MemSession) (a2s ws ak : List (String × String))
    (hterm : metadata.status ≠ SessionStatus.terminated)
    (hstale : staleThreshold < now - metadata.lastHeartbeat) :
    (performHealthCheck staleThreshold termFails now
      { memSessions := mem, agentToSession := a2s,
        redis := { sessions := [metadata], workspaceSets := ws,
                   agentKeys := ak } }).staleSessions = 1 ∧
    (performHealthCheck staleThreshold termFails now
      { memSessions := mem, agentToSession := a2s,
        redis := { sessions := [metadata], workspaceSets := ws,
                   agentKeys := ak } }).staleEvents =
      [{ sessionId := metadata.sessionId, agentId := metadata.agentId,
         lastHeartbeat := metadata.lastHeartbeat }] ∧
    (performHealthCheck staleThreshold termFails now
      { memSessions := mem, agentToSession := a2s,
        redis := { sessions := [metadata], workspaceSets := ws,
                   agentKeys := ak } }).terminationCalls =
      [metadata.sessionId] ∧
    ((mem.find? (fun ms => ms.sessionId = metadata.sessionId)).isSome →
      ∀ now2, (performHealthCheck staleThreshold termFails now2
        (performHealthCheck staleThreshold termFails now
          { memSessions := mem, agentToSession := a2s,
            redis := { sessions := [metadata], workspaceSets := ws,
                       agentKeys := ak } }).state).staleSessions = 0) ∧
    (mem.find? (fun ms => ms.sessionId = metadata.sessionId) = none →
      (performHealthCheck staleThreshold termFails now
        { memSessions := mem, agentToSession := a2s,
          redis := { sessions := [metadata], workspaceSets := ws,
                     agentKeys := ak } }).state =
        { memSessions := mem, agentToSession := a2s,
          redis := { sessions := [metadata], workspaceSets := ws,
                     agentKeys := ak } } ∧
      ∀ now2, staleThreshold < now2 - metadata.lastHeartbeat →
        (performHealthCheck staleThreshold termFails now2
          (performHealthCheck staleThreshold termFails now
            { memSessions := mem, agentToSession := a2s,
              redis := { sessions := [metadata], workspaceSets := ws,
                         agentKeys := ak } }).state).staleSessions = 1) := by
  have hpass1 : ∀ (st : SupervisorState), st.redis.sessions = [metadata] →
      performHealthCheck staleThreshold termFails now st =
        { totalSessions := 1
          activeSessions := 0
          staleSessions := 1
          terminatedSessions := 0
          staleEvents := [{ sessionId := metadata.sessionId
                            agentId := metadata.agentId
                            lastHeartbeat := metadata.lastHeartbeat }]
          terminationCalls := [metadata.sessionId]
          state := handleStaleSession termFails now st metadata } := by
    intro st hred
    rw [performHealthCheck]
    simp only [getAllSessionIds, hred, List.map_cons, List.map_nil,
      List.length_cons, List.length_nil, List.foldl_cons, List.foldl_nil]
    rw [healthCheckSessionId]
    simp only [getSessionR, hred, List.find?_cons, eq_self_iff_true,
      decide_True]
    rw [if_neg hterm, if_pos hstale]
    simp
  refine ⟨by rw [hpass1 _ rfl], by rw [hpass1 _ rfl], by rw [hpass1 _ rfl],
    ?_, ?_⟩
  · intro hmem now2
    rw [hpass1 _ rfl]
    simp only
    cases hf : mem.find? (fun ms => ms.sessionId = metadata.sessionId) with
    | none =>
      rw [hf] at hmem
      simp at hmem
    | some ms =>
      simp only [handleStaleSession, hf]
      by_cases htf : termFails metadata.sessionId = true
      · rw [if_pos htf]
        simp [performHealthCheck, getAllSessionIds, updateStatus,
          healthCheckSessionId, getSessionR]
      · rw [if_neg htf]
        simp [performHealthCheck, getAllSessionIds, cleanupSession,
          deleteSession, getSessionR, healthCheckSessionId]
  · intro hmem
    have hstate : handleStaleSession termFails now
        { memSessions := mem, agentToSession := a2s,
          redis := { sessions := [metadata], workspaceSets := ws,
                     agentKeys := ak } } metadata =
        { memSessions := mem, agentToSession := a2s,
          redis := { sessions := [metadata], workspaceSets := ws,
                     agentKeys := ak } } := by
      rw [handleStaleSession]
      simp only [hmem]
    refine ⟨by rw [hpass1 _ rfl]; simp only; rw [hstate], ?_⟩
    intro now2 hstale2
    rw [hpass1 _ rfl]
    simp only
    rw [hstate]
    rw [performHealthCheck]
    simp only [getAllSessionIds, List.map_cons, List.map_nil,
      List.foldl_cons, List.foldl_nil]
    rw [healthCheckSessionId]
    simp only [getSessionR, List.find?_cons, eq_self_iff_true, decide_True]
    rw [if_neg hterm, if_pos hstale2]

/-- Witness for the amended C2: when the supervisor holds the stale session
in memory, the first pass counts it stale and the next pass counts zero
stale sessions. -/
theorem healthMonitor_stale_amended_witness :
    (performHealthCheck 300000 (fun _ => false) 360000
      c2SupervisedState).staleSessions = 1 ∧
    (performHealthCheck 300000 (fun _ => false) 999999
      (performHealthCheck 300000 (fun _ => false) 360000
        c2SupervisedState).state).staleSessions = 0 := by
  have h := healthMonitor_stale_amended 300000 360000 (fun _ => false)
    c2StaleMetadata [c2MemSession] [("agent-9", "session-9")]
    [("ws-1", "session-9")] [("agent-9", "session-9")]
    (by decide) (by decide)
  exact ⟨h.1, h.2.2.2.1 (by decide) 999999⟩

end DevOS
